import Mathlib

/-!
Verification of the trial-sequence generation and delay-scheduling engine of
the `soa-delay-variance` repository (src/utils.py, src/config.py, src/audio.py,
src/experiment_bamba2020.py) against its natural-language specification.

Shallow embedding conventions:
* Python numbers are modelled exactly: `Int` for delays and indices, `ℚ` for
  ratios, times and weights.  IEEE special values produced by numpy division
  are modelled by the `PyFloat` type.
* `numpy.random.RandomState` is an external library; it is modelled as an
  abstract deterministic state machine (`NumpyRandomState`).  Its shuffle and
  choice primitives act on positions, which is faithful to numpy: Fisher–Yates
  shuffling and cdf-based choice select positions independently of the stored
  values.  The structure carries the library's documented contracts
  (a shuffle is a permutation of positions, chosen indices are in range).
* Stateful Python code is embedded by explicit state passing; the unbounded
  `while True` retry loop of `_sort_delays_with_constraint` is embedded with
  explicit fuel, `none` meaning the loop has not terminated within that many
  iterations (the source has no other exit: it raises nothing).
-/

/-- Model of a numpy / Python float value as produced by elementwise array
division: an exact rational, or one of the IEEE special values that numpy
produces on division by zero (`0/0 = nan`, `x/0 = ±inf`). -/
inductive PyFloat where
  | num (q : ℚ)
  | nan
  | inf
  | ninf
deriving DecidableEq, Repr

/-- numpy elementwise float division `a / b` (with exact-rational operands):
division by zero yields `nan` for `0/0` and `±inf` otherwise, mirroring
numpy's warning-but-no-exception semantics. -/
def npDiv (a b : ℚ) : PyFloat :=
  if b = 0 then
    if a = 0 then PyFloat.nan
    else if 0 < a then PyFloat.inf
    else PyFloat.ninf
  else PyFloat.num (a / b)

/-- Abstract deterministic model of `numpy.random.RandomState`: a state
machine seeded by an integer.  All primitives used by the repository are
deterministic functions of the state; the proof fields record the library
contracts the code relies on. -/
structure NumpyRandomState where
  State : Type
  /-- `np.random.RandomState(seed)` -/
  init : Int → State
  /-- `shuffle` on an array of length `n`, viewed as the permutation of
  positions it applies (numpy's Fisher–Yates draws depend only on `n`). -/
  permOfLen : State → Nat → List Nat × State
  permOfLen_perm : ∀ s n, (permOfLen s n).1.Perm (List.range n)
  /-- `choice(arr, size=k, p=w)` on an array of length `n`, viewed as the list
  of `k` chosen positions (numpy inverts the cdf of `w` to pick positions). -/
  choiceWeighted : State → Nat → List PyFloat → Nat → List Nat × State
  choiceWeighted_length : ∀ s n p k, ((choiceWeighted s n p k).1).length = k
  choiceWeighted_lt : ∀ s n p k, 0 < n → ∀ i ∈ (choiceWeighted s n p k).1, i < n
  /-- `choice(arr)` with no `size`/`p`: one uniformly chosen position among `n`. -/
  choiceUniform : State → Nat → Nat × State
  choiceUniform_lt : ∀ s n, 0 < n → (choiceUniform s n).1 < n
  /-- `randint(lo, hi)`: one integer in `[lo, hi)`. -/
  randint : State → Int → Int → Int × State

/-- Read position `i` of every index in `idxs` out of `l`
(`[l[i] for i in idxs]`, total version). -/
def selectIdx {α : Type} (l : List α) (idxs : List Nat) : List α :=
  idxs.filterMap (fun i => l[i]?)

/-- `RandomGenerator.shuffle` (src/utils.py:17-21): copies the list and
shuffles the copy, returning the shuffled copy.  Value-level embedding;
the heap-level embedding showing the caller's list is untouched is
`RandomGenerator.shuffleRef` below. -/
def RandomGenerator.shuffle (R : NumpyRandomState) {α : Type} (s : R.State)
    (arr : List α) : List α × R.State :=
  let ps := R.permOfLen s arr.length
  (selectIdx arr ps.1, ps.2)

/- ===== config.py constants ===== -/

/-- config.DELAY_SET (src/config.py:76) -/
def DELAY_SET : List Int := [0, 50, 100, 150, 200, 250, 300, 350, 400]

/-- config.MU_0 (src/config.py:75) -/
def MU_0 : ℚ := 200

/-- config.PRETONE_RATIO (src/config.py:81) -/
def PRETONE_RATIO : ℚ := 1/5

/-- config.DEFAULT_SEED (src/config.py:84) -/
def DEFAULT_SEED : Int := 42

/- ===== gaussian_weights (src/utils.py:28-43) ===== -/

/-- `gaussian_weights(delays, mu, sigma)` (src/utils.py:28-43).  The
floating-point exponential is an external library routine, passed in as
`expf` (an implementation that underflows maps large-magnitude negative
arguments to `0`).  The normalisation `weights / weights.sum()` is numpy
elementwise division, which silently yields `nan`/`inf` when the sum is
zero — the source performs no check and raises no error. -/
def gaussian_weights (expf : ℚ → ℚ) (delays : List Int) (mu sigma : ℚ) :
    List PyFloat :=
  let weights := delays.map (fun d : Int => expf (-(((d : ℚ) - mu) ^ 2) / (2 * sigma ^ 2)))
  weights.map (fun w => npDiv w weights.sum)

/- ===== generate_delay_sequence (src/utils.py:46-69) ===== -/

/-- `generate_delay_sequence(n_trials, sigma, rng)` (src/utils.py:46-69):
Gaussian weights over `config.DELAY_SET` centred at `config.MU_0`, weighted
sampling with replacement, and then — per line 69 — `rng.shuffle` applied to
the sampled list before returning. -/
def generate_delay_sequence (R : NumpyRandomState) (expf : ℚ → ℚ)
    (n_trials : Nat) (sigma : ℚ) (s : R.State) : List Int × R.State :=
  let delays := DELAY_SET
  let mu := MU_0
  let weights := gaussian_weights expf delays mu sigma
  let cw := R.choiceWeighted s delays.length weights n_trials
  let delay_list := selectIdx delays cw.1
  RandomGenerator.shuffle R cw.2 delay_list

/-- The delay-sequence builder as the specification describes it
("The chosen sequence is NOT shuffled here"): identical to
`generate_delay_sequence` except that the weighted-choice sample is returned
in sampling order, with no shuffle.  Used to compare spec against source. -/
def generate_delay_sequence_specNoShuffle (R : NumpyRandomState) (expf : ℚ → ℚ)
    (n_trials : Nat) (sigma : ℚ) (s : R.State) : List Int × R.State :=
  let delays := DELAY_SET
  let mu := MU_0
  let weights := gaussian_weights expf delays mu sigma
  let cw := R.choiceWeighted s delays.length weights n_trials
  (selectIdx delays cw.1, cw.2)

/- ===== assign_trial_types (src/utils.py:72-88) ===== -/

/-- Trial type strings `'Active'` / `'Pre-tone'`. -/
inductive TrialType where
  | active
  | pretone
deriving DecidableEq, Repr

/-- Python `int()` on an exact rational: truncation toward zero. -/
def pyInt (q : ℚ) : Int :=
  if 0 ≤ q then ⌊q⌋ else ⌈q⌉

/-- `assign_trial_types(n_trials, pretone_ratio, rng)` (src/utils.py:72-88):
`n_pretone = int(n_trials * pretone_ratio)`, the list
`['Active'] * n_active + ['Pre-tone'] * n_pretone`, shuffled.
(Python list repetition by a negative count yields `[]`, hence `Int.toNat`.) -/
def assign_trial_types (R : NumpyRandomState) (n_trials : Nat)
    (pretone_ratio : ℚ) (s : R.State) : List TrialType × R.State :=
  let n_pretone : Int := pyInt ((n_trials : ℚ) * pretone_ratio)
  let n_active : Int := (n_trials : Int) - n_pretone
  let trial_types :=
    List.replicate n_active.toNat TrialType.active ++
    List.replicate n_pretone.toNat TrialType.pretone
  RandomGenerator.shuffle R s trial_types

/- ===== basic lemmas about the shuffle model ===== -/

theorem selectIdx_range_length {α : Type} (l : List α) :
    selectIdx l (List.range l.length) = l := by
  induction l with
  | nil => rfl
  | cons a t ih =>
    simp only [selectIdx] at ih ⊢
    rw [List.length_cons, List.range_succ_eq_map, List.filterMap_cons,
      List.filterMap_map]
    have hc : ((fun i => (a :: t)[i]?) ∘ Nat.succ) = fun i => t[i]? := by
      funext i; simp
    simp [hc, ih]

theorem selectIdx_perm {α : Type} (l : List α) (p : List Nat)
    (hp : p.Perm (List.range l.length)) : (selectIdx l p).Perm l := by
  have h1 : (selectIdx l p).Perm (selectIdx l (List.range l.length)) :=
    List.Perm.filterMap _ hp
  rw [selectIdx_range_length] at h1
  exact h1

theorem RandomGenerator.shuffle_perm (R : NumpyRandomState) {α : Type}
    (s : R.State) (arr : List α) :
    ((RandomGenerator.shuffle R s arr).1).Perm arr :=
  selectIdx_perm arr _ (R.permOfLen_perm s arr.length)

theorem selectIdx_length_of_lt {α : Type} (l : List α) (idxs : List Nat)
    (h : ∀ i ∈ idxs, i < l.length) : (selectIdx l idxs).length = idxs.length := by
  induction idxs with
  | nil => rfl
  | cons i t ih =>
    have hi : i < l.length := h i (List.mem_cons_self i t)
    simp only [selectIdx, List.filterMap_cons] at ih ⊢
    rw [List.getElem?_eq_getElem hi]
    simp [ih (fun j hj => h j (List.mem_cons_of_mem i hj))]

/- ===== trial records and block configuration ===== -/

/-- One trial dict as built by `create_block_trials` (src/utils.py:133-143);
`trial_index_global` is the key added later by `create_all_trials`
(src/utils.py:178-180), initialised to 0 until that pass assigns it. -/
structure Trial where
  block_id : String
  block_name : String
  trial_index_in_block : Nat
  trial_type : TrialType
  delay_ms : Option Int
  sigma : Option ℚ
  trial_index_global : Nat
deriving DecidableEq, Repr

/-- One block-configuration dict of `config.EXPERIMENT_PRESETS[..]['blocks']`
(src/config.py): the optional fields model Python key presence, tested by
`'fixed_delay' in block_info` etc. in src/utils.py:114-127. -/
structure BlockInfo where
  n_trials : Nat
  sigma : Option ℚ
  name : String
  fixed_delay : Option Int := none
  discrete_set : Option (List Int) := none
  uniform_range : Option (Int × Int) := none
deriving DecidableEq, Repr

/-- One preset of `config.EXPERIMENT_PRESETS` (src/config.py:12-65); blocks
are an association list keyed by block id. -/
structure PresetConfig where
  blocks : List (String × BlockInfo)
  block_order : List String
  pretone_ratio : Option ℚ := none
deriving DecidableEq, Repr

/-- `list(range(0, 501, 50))` (src/config.py:37,41,47,52). -/
def range0to500step50 : List Int :=
  [0, 50, 100, 150, 200, 250, 300, 350, 400, 450, 500]

/-- config.EXPERIMENT_PRESETS (src/config.py:12-65). -/
def EXPERIMENT_PRESETS : List (String × PresetConfig) :=
  [("original",
    { blocks :=
        [("learning", { n_trials := 160, sigma := some 50, name := "学習ブロック" }),
         ("stable1", { n_trials := 80, sigma := some 50, name := "安定ブロック1" }),
         ("volatile", { n_trials := 160, sigma := some 150, name := "変動ブロック" }),
         ("stable2", { n_trials := 80, sigma := some 50, name := "安定ブロック2" })],
      block_order := ["learning", "stable1", "volatile", "stable2"] }),
   ("condition1_stable",
    { blocks :=
        [("stable_0ms", { n_trials := 20, sigma := none, name := "遅延0ms固定",
                          fixed_delay := some 0 })],
      block_order := ["stable_0ms"] }),
   ("condition2_volatile",
    { blocks :=
        [("volatile_random", { n_trials := 20, sigma := none, name := "遅延ランダム",
                               discrete_set := some range0to500step50 })],
      block_order := ["volatile_random"] }),
   ("stable_volatile_stable",
    { blocks :=
        [("stable_0ms_1", { n_trials := 20, sigma := none, name := "安定ブロック1（遅延0ms）",
                            fixed_delay := some 0 }),
         ("volatile_random", { n_trials := 20, sigma := none, name := "不安定ブロック（遅延0-500ms）",
                               discrete_set := some range0to500step50 }),
         ("stable_0ms_2", { n_trials := 20, sigma := none, name := "安定ブロック2（遅延0ms）",
                            fixed_delay := some 0 })],
      block_order := ["stable_0ms_1", "volatile_random", "stable_0ms_2"] }),
   ("learning_test",
    { blocks :=
        [("learning", { n_trials := 160, sigma := some 150, name := "学習段階（200ms±50ms）" }),
         ("test", { n_trials := 20, sigma := none, name := "テスト段階（0ms/400ms）",
                    discrete_set := some [0, 400] })],
      block_order := ["learning", "test"],
      pretone_ratio := some (1/10) })]

/-- config.BLOCKS (src/config.py:71): the `'original'` preset's blocks. -/
def BLOCKS : List (String × BlockInfo) :=
  [("learning", { n_trials := 160, sigma := some 50, name := "学習ブロック" }),
   ("stable1", { n_trials := 80, sigma := some 50, name := "安定ブロック1" }),
   ("volatile", { n_trials := 160, sigma := some 150, name := "変動ブロック" }),
   ("stable2", { n_trials := 80, sigma := some 50, name := "安定ブロック2" })]

/-- config.BLOCK_ORDER (src/config.py:72). -/
def BLOCK_ORDER : List String := ["learning", "stable1", "volatile", "stable2"]

/- ===== create_block_trials (src/utils.py:91-145) ===== -/

/-- `[rng.choice(discrete_set) for _ in range(n)]` (src/utils.py:120):
`n` successive single uniform choices from `discrete_set`. -/
def choiceLoop (R : NumpyRandomState) (ds : List Int) :
    Nat → R.State → List Int × R.State
  | 0, s => ([], s)
  | n + 1, s =>
    let c := R.choiceUniform s ds.length
    let rest := choiceLoop R ds n c.2
    ((ds[c.1]?.getD 0) :: rest.1, rest.2)

/-- `[rng.rng.randint(min_delay, max_delay + 1) for _ in range(n)]`
(src/utils.py:124). -/
def randintLoop (R : NumpyRandomState) (lo hi : Int) :
    Nat → R.State → List Int × R.State
  | 0, s => ([], s)
  | n + 1, s =>
    let v := R.randint s lo hi
    let rest := randintLoop R lo hi n v.2
    (v.1 :: rest.1, rest.2)

/-- The delay-generation dispatch of `create_block_trials`
(src/utils.py:113-127): the `if/elif` chain gives precedence
fixed_delay > discrete_set > uniform_range > Gaussian-weighted.
In the Gaussian branch the source passes `block_info.get('sigma')` straight
through; a block of that mode always carries a numeric sigma (a `None` there
would be a `TypeError` in the source), modelled by `getD 0`. -/
def block_delays (R : NumpyRandomState) (expf : ℚ → ℚ) (block_info : BlockInfo)
    (s : R.State) : List Int × R.State :=
  match block_info.fixed_delay with
  | some fd => (List.replicate block_info.n_trials fd, s)
  | none =>
    match block_info.discrete_set with
    | some ds => choiceLoop R ds block_info.n_trials s
    | none =>
      match block_info.uniform_range with
      | some lohi => randintLoop R lohi.1 (lohi.2 + 1) block_info.n_trials s
      | none =>
        generate_delay_sequence R expf block_info.n_trials
          ((block_info.sigma).getD 0) s

/-- `create_block_trials(block_id, rng, block_info, pretone_ratio)`
(src/utils.py:91-145): generate the block's delays, assign trial types, then
zip position-by-position into trial dicts; `delay_ms` is `None` on Pre-tone
trials, `sigma` is recorded on every trial. -/
def create_block_trials (R : NumpyRandomState) (expf : ℚ → ℚ)
    (block_id : String) (block_info : BlockInfo) (pretone_ratio : ℚ)
    (s : R.State) : List Trial × R.State :=
  let n_trials := block_info.n_trials
  let ds := block_delays R expf block_info s
  let tt := assign_trial_types R n_trials pretone_ratio ds.2
  let trials := (List.range n_trials).map (fun i =>
    { block_id := block_id
      block_name := block_info.name
      trial_index_in_block := i
      trial_type := (tt.1[i]?).getD TrialType.active
      delay_ms :=
        if (tt.1[i]?).getD TrialType.active = TrialType.active then
          some ((ds.1[i]?).getD 0)
        else none
      sigma := block_info.sigma
      trial_index_global := 0 : Trial })
  (trials, tt.2)

/- ===== create_all_trials (src/utils.py:148-184) ===== -/

/-- Placeholder for `blocks[block_id]` on a block id absent from the table —
a `KeyError` in the source; never reached by the shipped configurations. -/
def keyErrorBlock : BlockInfo :=
  { n_trials := 0, sigma := none, name := "", fixed_delay := some 0 }

/-- The block loop of `create_all_trials` (src/utils.py:174-182): iterate
block ids in order, build each block's trials, stamp each trial with the
running `global_index`, and concatenate. -/
def buildBlocksLoop (R : NumpyRandomState) (expf : ℚ → ℚ)
    (blocks : List (String × BlockInfo)) (pretone_ratio : ℚ) :
    List String → Nat → R.State → List Trial
  | [], _, _ => []
  | block_id :: rest, global_index, s =>
    let block_info := (blocks.lookup block_id).getD keyErrorBlock
    let bt := create_block_trials R expf block_id block_info pretone_ratio s
    let numbered := bt.1.enum.map
      (fun p => { p.2 with trial_index_global := global_index + p.1 })
    numbered ++ buildBlocksLoop R expf blocks pretone_ratio rest
      (global_index + bt.1.length) bt.2

/-- Resolution of (blocks, block_order, pretone_ratio) from the preset
argument (src/utils.py:163-172).  `if preset and preset in
config.EXPERIMENT_PRESETS:` — a `None` or empty-string or unknown preset
name silently selects the default configuration; no error is raised. -/
def resolve_preset (preset : Option String) :
    List (String × BlockInfo) × List String × ℚ :=
  match preset with
  | some p =>
    if p ≠ "" then
      match EXPERIMENT_PRESETS.lookup p with
      | some pc => (pc.blocks, pc.block_order, (pc.pretone_ratio).getD PRETONE_RATIO)
      | none => (BLOCKS, BLOCK_ORDER, PRETONE_RATIO)
    else (BLOCKS, BLOCK_ORDER, PRETONE_RATIO)
  | none => (BLOCKS, BLOCK_ORDER, PRETONE_RATIO)

/-- `create_all_trials(seed, preset)` (src/utils.py:148-184): construct one
`RandomGenerator(seed)` for the whole plan, resolve the preset (falling back
to the default configuration when absent), and run the block loop from
`global_index = 0`. -/
def create_all_trials (R : NumpyRandomState) (expf : ℚ → ℚ) (seed : Int)
    (preset : Option String) : List Trial :=
  let s := R.init seed
  let cfg := resolve_preset preset
  buildBlocksLoop R expf cfg.1 cfg.2.2 cfg.2.1 0 s

/-- State-explicit variant of `create_all_trials`, exposing the generator
state the plan is built from; `create_all_trials` is exactly this applied to
`R.init seed` (the `rng = RandomGenerator(seed)` at src/utils.py:159). -/
def create_all_trials_from (R : NumpyRandomState) (expf : ℚ → ℚ)
    (s : R.State) (preset : Option String) : List Trial :=
  let cfg := resolve_preset preset
  buildBlocksLoop R expf cfg.1 cfg.2.2 cfg.2.1 0 s

/- ===== AudioScheduler (src/audio.py:71-122) ===== -/

/-- The scheduling state of `AudioScheduler` (src/audio.py:74-77): an
optional absolute fire time and an optional realised fire time, both in
seconds (`core.getTime` values, modelled as exact rationals). -/
structure AudioScheduler where
  scheduled_time : Option ℚ
  actual_play_time : Option ℚ
deriving DecidableEq, Repr

/-- `AudioScheduler.__init__` (src/audio.py:74-77). -/
def AudioScheduler.empty : AudioScheduler :=
  { scheduled_time := none, actual_play_time := none }

/-- `schedule_tone(delay_ms, reference_time)` (src/audio.py:79-87):
`scheduled_time = reference_time + delay_ms / 1000.0`. -/
def AudioScheduler.schedule_tone (a : AudioScheduler) (delay_ms : ℚ)
    (reference_time : ℚ) : AudioScheduler :=
  { a with scheduled_time := some (reference_time + delay_ms / 1000) }

/-- `play_if_ready()` (src/audio.py:89-106), with the `core.getTime()` read
passed in as `now`: returns whether the tone was played together with the
scheduler state after the call.  Playing records `actual_play_time = now`
and clears `scheduled_time`; otherwise the state is untouched. -/
def AudioScheduler.play_if_ready (a : AudioScheduler) (now : ℚ) :
    Bool × AudioScheduler :=
  match a.scheduled_time with
  | none => (false, a)
  | some t =>
    if now ≥ t then
      (true, { a with actual_play_time := some now, scheduled_time := none })
    else (false, a)

/-- `reset()` (src/audio.py:115-118). -/
def AudioScheduler.resetState (a : AudioScheduler) : AudioScheduler :=
  { a with scheduled_time := none, actual_play_time := none }

/- ===== _sort_delays_with_constraint (src/experiment_bamba2020.py:499-529) ===== -/

/-- The validity scan of `_sort_delays_with_constraint`
(src/experiment_bamba2020.py:521-526): every adjacent pair of the list
differs by at most `max_diff` in absolute value. -/
def adjacentValid (max_diff : Int) : List Int → Bool
  | [] => true
  | [_] => true
  | a :: b :: rest => decide (|a - b| ≤ max_diff) && adjacentValid max_diff (b :: rest)

/-- The `while True` shuffle-and-check loop of `_sort_delays_with_constraint`
(src/experiment_bamba2020.py:515-528), embedded with explicit fuel.  Each
iteration copies `delays`, applies a fresh `np.random.shuffle`, and returns
the shuffle if its adjacent differences all satisfy the bound.  `none` means
the loop has not terminated within `fuel` iterations — the source loop has no
retry cap and raises nothing, so exhausted fuel corresponds to the source
still spinning. -/
def sortDelaysLoop (R : NumpyRandomState) (delays : List Int) (max_diff : Int) :
    Nat → R.State → Option (List Int)
  | 0, _ => none
  | fuel + 1, s =>
    let ps := R.permOfLen s delays.length
    let shuffled := selectIdx delays ps.1
    if adjacentValid max_diff shuffled then some shuffled
    else sortDelaysLoop R delays max_diff fuel ps.2

/-- `_sort_delays_with_constraint(delays, max_diff)`
(src/experiment_bamba2020.py:499-529): lists of length ≤ 1 are returned
unchanged immediately; otherwise the unbounded shuffle-and-check loop runs
(here up to `fuel` iterations). -/
def sort_delays_with_constraint (R : NumpyRandomState) (delays : List Int)
    (max_diff : Int) (fuel : Nat) (s : R.State) : Option (List Int) :=
  if delays.length ≤ 1 then some delays
  else sortDelaysLoop R delays max_diff fuel s

/- ===== heap-level model of RandomGenerator.shuffle (src/utils.py:17-21) ===== -/

/-- A store of Python list objects: cell `r` holds the contents of the list
object referenced by `r`.  Used to express aliasing/mutation facts about
`RandomGenerator.shuffle`, which the value-level embedding cannot state. -/
structure PyListHeap where
  cells : List (List Int)
deriving DecidableEq, Repr

/-- Contents of the list object referenced by `r`. -/
def PyListHeap.read (h : PyListHeap) (r : Nat) : List Int :=
  (h.cells[r]?).getD []

/-- `RandomGenerator.shuffle` (src/utils.py:17-21) at the Python object
level.  `arr_copy = arr.copy()` allocates a fresh cell holding a copy of the
argument's contents; `self.rng.shuffle(arr_copy)` permutes that fresh cell in
place; the reference to the fresh cell is returned.  The argument cell is
never written. -/
def RandomGenerator.shuffleRef (R : NumpyRandomState) (s : R.State)
    (h : PyListHeap) (r : Nat) : Nat × PyListHeap × R.State :=
  let arr := h.read r
  let copyRef := h.cells.length
  let h1 : PyListHeap := ⟨h.cells ++ [arr]⟩
  let ps := R.permOfLen s arr.length
  let shuffled := selectIdx arr ps.1
  let h2 : PyListHeap := ⟨h1.cells.set copyRef shuffled⟩
  (copyRef, h2, ps.2)

/- ===== concrete RandomState instance for witnesses ===== -/

/-- A concrete deterministic instance of the `NumpyRandomState` interface,
used to instantiate theorems at executable inputs: its shuffle reverses
the positions and its weighted choice cycles through positions. -/
def detRandom : NumpyRandomState where
  State := Unit
  init _ := ()
  permOfLen _ n := ((List.range n).reverse, ())
  permOfLen_perm := by
    intro s n
    exact List.reverse_perm (List.range n)
  choiceWeighted _ n _ k := ((List.range k).map (fun i => i % n), ())
  choiceWeighted_length := by
    intro s n p k
    simp
  choiceWeighted_lt := by
    intro s n p k hn i hi
    simp only [List.mem_map] at hi
    obtain ⟨j, _, rfl⟩ := hi
    exact Nat.mod_lt j hn
  choiceUniform _ _ := (0, ())
  choiceUniform_lt := by
    intro s n hn
    simpa using hn
  randint _ lo _ := (lo, ())

/-- An exponential implementation that has totally underflowed: every weight
evaluates to `0`.  Stands for `np.exp` on arguments far below the underflow
threshold (σ tiny relative to the delay spacing, or μ far outside the
delay range). -/
def underflowExp : ℚ → ℚ := fun _ => 0

/- ===== shared helper lemmas ===== -/

theorem perm_pair_cases {a b : Int} (l : List Int) (h : l.Perm [a, b]) :
    l = [a, b] ∨ l = [b, a] := by
  have hlen : l.length = 2 := by simpa using h.length_eq
  match l, hlen with
  | [x, y], _ =>
    have hx : x ∈ [a, b] := h.subset (by simp)
    rcases List.mem_pair.mp hx with rfl | rfl
    · left
      have h2 : [y].Perm [b] := h.cons_inv
      have : y ∈ [b] := h2.subset (by simp)
      simp only [List.mem_singleton] at this
      rw [this]
    · right
      have h2 : List.Perm (x :: y :: ([] : List Int)) (x :: a :: []) :=
        h.trans (List.Perm.swap x a [])
      have h3 : [y].Perm [a] := h2.cons_inv
      have : y ∈ [a] := h3.subset (by simp)
      simp only [List.mem_singleton] at this
      rw [this]

theorem adjacentValid_iff_chain (max_diff : Int) (l : List Int) :
    adjacentValid max_diff l = true ↔ l.Chain' (fun a b => |a - b| ≤ max_diff) := by
  induction l with
  | nil => simp [adjacentValid]
  | cons a t ih =>
    cases t with
    | nil => simp [adjacentValid]
    | cons b r =>
      rw [adjacentValid, List.chain'_cons, Bool.and_eq_true, decide_eq_true_iff, ih]

theorem sortDelaysLoop_sound (R : NumpyRandomState) (delays : List Int)
    (max_diff : Int) :
    ∀ (fuel : Nat) (s : R.State) (r : List Int),
      sortDelaysLoop R delays max_diff fuel s = some r →
      r.Perm delays ∧ adjacentValid max_diff r = true := by
  intro fuel
  induction fuel with
  | zero =>
    intro s r h
    simp [sortDelaysLoop] at h
  | succ n ih =>
    intro s r h
    simp only [sortDelaysLoop] at h
    split at h
    · rename_i hv
      rw [Option.some_inj] at h
      subst h
      exact ⟨selectIdx_perm delays _ (R.permOfLen_perm s delays.length), hv⟩
    · exact ih _ r h

theorem sortDelaysLoop_unsat (R : NumpyRandomState) :
    ∀ (fuel : Nat) (s : R.State),
      sortDelaysLoop R [0, 1000] 1 fuel s = none := by
  intro fuel
  induction fuel with
  | zero => intro s; rfl
  | succ n ih =>
    intro s
    simp only [sortDelaysLoop]
    have hperm :
        (selectIdx ([0, 1000] : List Int)
            (R.permOfLen s ([0, 1000] : List Int).length).1).Perm
          ([0, 1000] : List Int) :=
      selectIdx_perm _ _ (R.permOfLen_perm s _)
    rcases perm_pair_cases _ hperm with h | h <;> rw [h] <;>
      simpa [adjacentValid] using ih (R.permOfLen s ([0, 1000] : List Int).length).2

theorem create_block_trials_length (R : NumpyRandomState) (expf : ℚ → ℚ)
    (bid : String) (bi : BlockInfo) (ratio : ℚ) (s : R.State) :
    ((create_block_trials R expf bid bi ratio s).1).length = bi.n_trials := by
  simp [create_block_trials]

theorem create_block_trials_map_inblock (R : NumpyRandomState) (expf : ℚ → ℚ)
    (bid : String) (bi : BlockInfo) (ratio : ℚ) (s : R.State) :
    ((create_block_trials R expf bid bi ratio s).1).map Trial.trial_index_in_block
      = List.range bi.n_trials := by
  simp only [create_block_trials, List.map_map]
  have : (Trial.trial_index_in_block ∘ fun i =>
      ({ block_id := bid, block_name := bi.name, trial_index_in_block := i,
         trial_type := (((assign_trial_types R bi.n_trials ratio
            (block_delays R expf bi s).2).1)[i]?).getD TrialType.active,
         delay_ms := if (((assign_trial_types R bi.n_trials ratio
            (block_delays R expf bi s).2).1)[i]?).getD TrialType.active
              = TrialType.active then
            some ((((block_delays R expf bi s).1)[i]?).getD 0) else none,
         sigma := bi.sigma, trial_index_global := 0 } : Trial)) = id := by
    funext i
    rfl
  rw [this, List.map_id]

theorem buildBlocksLoop_map_global (R : NumpyRandomState) (expf : ℚ → ℚ)
    (blocks : List (String × BlockInfo)) (ratio : ℚ) :
    ∀ (order : List String) (g : Nat) (s : R.State),
      (buildBlocksLoop R expf blocks ratio order g s).map Trial.trial_index_global
        = List.range' g (buildBlocksLoop R expf blocks ratio order g s).length := by
  intro order
  induction order with
  | nil =>
    intro g s
    rfl
  | cons bid rest ih =>
    intro g s
    simp only [buildBlocksLoop, List.map_append, List.length_append, List.map_map]
    set bt := create_block_trials R expf bid
      ((blocks.lookup bid).getD keyErrorBlock) ratio s with hbt
    have h1 : bt.1.enum.map (Trial.trial_index_global ∘ fun p =>
        { p.2 with trial_index_global := g + p.1 }) = List.range' g bt.1.length := by
      have hcomp : (Trial.trial_index_global ∘ fun p : Nat × Trial =>
          { p.2 with trial_index_global := g + p.1 })
            = (fun k => g + k) ∘ Prod.fst := by
        funext p
        rfl
      rw [hcomp, ← List.map_map, List.enum_map_fst, ← List.range'_eq_map_range]
    have h2 : (bt.1.enum.map (fun p =>
        ({ p.2 with trial_index_global := g + p.1 } : Trial))).length = bt.1.length := by
      simp
    rw [h1, ih (g + bt.1.length) bt.2, h2, Nat.add_comm bt.1.length
      (buildBlocksLoop R expf blocks ratio rest (g + bt.1.length) bt.2).length]
    have h3 := List.range'_append g bt.1.length
      (buildBlocksLoop R expf blocks ratio rest (g + bt.1.length) bt.2).length 1
    simp only [one_mul] at h3
    exact h3

theorem buildBlocksLoop_length (R : NumpyRandomState) (expf : ℚ → ℚ)
    (blocks : List (String × BlockInfo)) (ratio : ℚ) :
    ∀ (order : List String) (g : Nat) (s : R.State),
      (buildBlocksLoop R expf blocks ratio order g s).length
        = (order.map (fun bid =>
            ((blocks.lookup bid).getD keyErrorBlock).n_trials)).sum := by
  intro order
  induction order with
  | nil =>
    intro g s
    rfl
  | cons bid rest ih =>
    intro g s
    simp only [buildBlocksLoop, List.length_append, List.length_map, List.enum_length,
      List.map_cons, List.sum_cons]
    rw [create_block_trials_length, ih]

theorem length_append_replicate_types (aN pN : Nat) :
    (List.replicate aN TrialType.active ++ List.replicate pN TrialType.pretone).length
      = aN + pN := by
  simp

theorem count_append_replicate_pretone (aN pN : Nat) :
    (List.replicate aN TrialType.active ++
      List.replicate pN TrialType.pretone).count TrialType.pretone = pN := by
  simp [List.count_append, List.count_replicate]

theorem count_append_replicate_active (aN pN : Nat) :
    (List.replicate aN TrialType.active ++
      List.replicate pN TrialType.pretone).count TrialType.active = aN := by
  simp [List.count_append, List.count_replicate]

/- ===== claim theorems ===== -/

/-- C3 (counterexample): at a concrete degenerate input — an exponential that
has fully underflowed, so every unnormalized Gaussian weight evaluates to 0 —
`gaussian_weights` silently returns NaN values.  It raises no
`InvalidWeightConfiguration` (no such error exists anywhere in the source,
and the function's only path is the unchecked division at src/utils.py:42). -/
theorem gaussian_weights_degenerate_counterexample :
    (∀ w ∈ ([0, 50] : List Int).map
        (fun d : Int => underflowExp (-(((d : ℚ) - 200) ^ 2) / (2 * 1 ^ 2))), w = 0)
    ∧ gaussian_weights underflowExp [0, 50] 200 1 = [PyFloat.nan, PyFloat.nan] := by
  constructor
  · intro w hw
    simpa [underflowExp] using hw
  · norm_num [gaussian_weights, underflowExp, npDiv]

/-- C3 (amended): whenever every unnormalized Gaussian weight evaluates to 0,
`gaussian_weights` returns a list of NaN values (numpy computes `0/0` for
each entry) — it does not raise, and nothing downstream aborts plan
construction. -/
theorem gaussian_weights_degenerate_nan (expf : ℚ → ℚ) (delays : List Int)
    (mu sigma : ℚ)
    (h : ∀ w ∈ delays.map (fun d : Int => expf (-(((d : ℚ) - mu) ^ 2) / (2 * sigma ^ 2))),
      w = 0) :
    gaussian_weights expf delays mu sigma
      = List.replicate delays.length PyFloat.nan := by
  simp only [gaussian_weights]
  rw [List.sum_eq_zero h, List.eq_replicate_iff]
  refine ⟨by simp, ?_⟩
  intro b hb
  obtain ⟨w, hw, rfl⟩ := List.mem_map.mp hb
  rw [h w hw]
  simp [npDiv]

/-- C3 (witness for the amended theorem): a concrete all-underflowed input on
three delays yields three NaNs. -/
theorem gaussian_weights_degenerate_nan_witness :
    gaussian_weights underflowExp [0, 50, 100] 200 2
      = List.replicate 3 PyFloat.nan := by
  have h := gaussian_weights_degenerate_nan underflowExp [0, 50, 100] 200 2
    (by intro w hw; simpa [underflowExp] using hw)
  simpa using h

/-- C4 (counterexample): at a concrete input (the deterministic RandomState
instance whose shuffle reverses, two Gaussian-mode trials), the source's
delay-sequence builder does NOT return the weighted-choice sample in sampling
order: the claim "no shuffle is applied to the chosen sequence inside the
delay-sequence builder" is false of src/utils.py:69. -/
theorem generate_delay_sequence_counterexample :
    (generate_delay_sequence detRandom underflowExp 2 50 ()).1
      ≠ (generate_delay_sequence_specNoShuffle detRandom underflowExp 2 50 ()).1 := by
  decide

/-- C4 (amended): in Gaussian-weighted mode the delay-sequence builder
returns `rng.shuffle` applied to the weighted-choice sample — the result is a
(seeded-shuffle) permutation of the sample rather than the sample in sampling
order. -/
theorem generate_delay_sequence_shuffles (R : NumpyRandomState) (expf : ℚ → ℚ)
    (n_trials : Nat) (sigma : ℚ) (s : R.State) :
    generate_delay_sequence R expf n_trials sigma s
      = RandomGenerator.shuffle R
          (generate_delay_sequence_specNoShuffle R expf n_trials sigma s).2
          (generate_delay_sequence_specNoShuffle R expf n_trials sigma s).1
    ∧ ((generate_delay_sequence R expf n_trials sigma s).1).Perm
        ((generate_delay_sequence_specNoShuffle R expf n_trials sigma s).1) := by
  constructor
  · rfl
  · exact RandomGenerator.shuffle_perm R _ _

/-- C5: scheduler poll fires exactly once.  After
`schedule_tone(delay_ms, t0)` sets the fire time `t0 + delay_ms/1000`
(src/audio.py:87), a poll before the fire time returns false and leaves the
state untouched; a poll at or after the fire time returns true, records
`actual_play_time = now` and clears the schedule; and any poll of the fired
state returns false and leaves it untouched, until the next `schedule_tone`. -/
theorem play_if_ready_fires_exactly_once (a : AudioScheduler)
    (delay_ms t0 now now' : ℚ) :
    (now < t0 + delay_ms / 1000 →
      (a.schedule_tone delay_ms t0).play_if_ready now
        = (false, a.schedule_tone delay_ms t0))
    ∧ (t0 + delay_ms / 1000 ≤ now →
      ((a.schedule_tone delay_ms t0).play_if_ready now).1 = true
      ∧ ((a.schedule_tone delay_ms t0).play_if_ready now).2.actual_play_time
          = some now
      ∧ ((a.schedule_tone delay_ms t0).play_if_ready now).2.scheduled_time = none)
    ∧ (t0 + delay_ms / 1000 ≤ now →
      (((a.schedule_tone delay_ms t0).play_if_ready now).2).play_if_ready now'
        = (false, ((a.schedule_tone delay_ms t0).play_if_ready now).2)) := by
  refine ⟨?_, ?_, ?_⟩ <;> intro h
  · simp [AudioScheduler.schedule_tone, AudioScheduler.play_if_ready,
      not_le.mpr h]
  · simp [AudioScheduler.schedule_tone, AudioScheduler.play_if_ready, h]
  · simp [AudioScheduler.schedule_tone, AudioScheduler.play_if_ready, h]

/-- C5 (witness): `arm(100, 0)` then polling at `0.099` returns false,
polling at `0.101` returns true, and a subsequent poll at `0.102` returns
false again — the spec's concrete example. -/
theorem play_if_ready_fires_exactly_once_witness :
    ((AudioScheduler.empty.schedule_tone 100 0).play_if_ready (99/1000)).1 = false
    ∧ ((AudioScheduler.empty.schedule_tone 100 0).play_if_ready (101/1000)).1 = true
    ∧ ((((AudioScheduler.empty.schedule_tone 100 0).play_if_ready
          (101/1000)).2).play_if_ready (102/1000)).1 = false := by
  refine ⟨?_, ?_, ?_⟩
  · have h := (play_if_ready_fires_exactly_once AudioScheduler.empty 100 0
      (99/1000) 0).1 (by norm_num)
    rw [h]
  · exact ((play_if_ready_fires_exactly_once AudioScheduler.empty 100 0
      (101/1000) (102/1000)).2.1 (by norm_num)).1
  · have h := (play_if_ready_fires_exactly_once AudioScheduler.empty 100 0
      (101/1000) (102/1000)).2.2 (by norm_num)
    rw [h]

/-- C2 (counterexample): on values `[0, 1000]` with `max_diff = 1` — where no
permutation can satisfy the bound — after 10,000 shuffle attempts the
source's `while True` loop has neither returned nor raised anything: there is
no retry cap and no `NoValidOrderingFound` anywhere in the source. -/
theorem sort_delays_unsat_counterexample :
    sort_delays_with_constraint detRandom [0, 1000] 1 10000 () = none := by
  simp only [sort_delays_with_constraint]
  rw [if_neg (by norm_num : ¬ ([0, 1000] : List Int).length ≤ 1)]
  exact sortDelaysLoop_unsat detRandom 10000 ()

/-- C2 (amended): on an input where no permutation satisfies the bound
(values `[0, 1000]`, `max_diff = 1`), `_sort_delays_with_constraint` loops
forever: for every RandomState behaviour and every number of iterations the
shuffle-and-check loop is still running — it never returns and never raises,
because the source's `while True` has no retry cap and no exception path. -/
theorem sort_delays_unsat_never_returns (R : NumpyRandomState) (fuel : Nat)
    (s : R.State) :
    sort_delays_with_constraint R [0, 1000] 1 fuel s = none := by
  simp only [sort_delays_with_constraint]
  rw [if_neg (by norm_num : ¬ ([0, 1000] : List Int).length ≤ 1)]
  exact sortDelaysLoop_unsat R fuel s

/-- C8: the constrained shuffle is partially correct: whenever
`_sort_delays_with_constraint` returns a list, that list is a permutation of
the input whose every adjacent pair differs by at most `max_diff` in absolute
value, and inputs of length ≤ 1 are returned unchanged immediately. -/
theorem sort_delays_partial_correct (R : NumpyRandomState) (delays : List Int)
    (max_diff : Int) (fuel : Nat) (s : R.State) (_hmd : 0 ≤ max_diff) :
    (∀ r, sort_delays_with_constraint R delays max_diff fuel s = some r →
      r.Perm delays ∧ List.Chain' (fun a b => |a - b| ≤ max_diff) r)
    ∧ (delays.length ≤ 1 →
      sort_delays_with_constraint R delays max_diff fuel s = some delays) := by
  constructor
  · intro r hr
    unfold sort_delays_with_constraint at hr
    split at hr
    · rename_i hlen
      rw [Option.some_inj] at hr
      subst hr
      refine ⟨List.Perm.refl _, ?_⟩
      cases delays with
      | nil => exact List.chain'_nil
      | cons a t =>
        cases t with
        | nil => exact List.chain'_singleton a
        | cons b u => simp at hlen
    · obtain ⟨hperm, hvalid⟩ := sortDelaysLoop_sound R delays max_diff fuel s r hr
      exact ⟨hperm, (adjacentValid_iff_chain max_diff r).mp hvalid⟩
  · intro hlen
    unfold sort_delays_with_constraint
    rw [if_pos hlen]

/-- C8 (witness): a concrete run on `[0, 50]` with `max_diff = 250` returns
`[50, 0]` — a permutation with all adjacent differences within bound — and a
singleton input is returned unchanged. -/
theorem sort_delays_partial_correct_witness :
    (([50, 0] : List Int).Perm [0, 50]
      ∧ List.Chain' (fun a b => |a - b| ≤ (250 : Int)) [50, 0])
    ∧ sort_delays_with_constraint detRandom [7] 0 0 () = some [7] := by
  constructor
  · exact (sort_delays_partial_correct detRandom [0, 50] 250 1 ()
      (by norm_num)).1 [50, 0] (by decide)
  · exact (sort_delays_partial_correct detRandom [7] 0 0 ()
      (by norm_num)).2 (by norm_num)

/-- C7: trial-type assignment realises the exact ratio: for every `n ≥ 1`,
`ratio ∈ [0, 1]` and RandomState state, `assign_trial_types` returns a list
of length `n` with exactly `⌊n·ratio⌋` Pre-tone entries and `n − ⌊n·ratio⌋`
Active entries (the edge cases `ratio = 0` and a ratio whose Pre-tone count
reaches `n` are instances). -/
theorem assign_trial_types_ratio (R : NumpyRandomState) (n : Nat) (ratio : ℚ)
    (s : R.State) (hn : 1 ≤ n) (h0 : 0 ≤ ratio) (h1 : ratio ≤ 1) :
    ((assign_trial_types R n ratio s).1).length = n
    ∧ ((assign_trial_types R n ratio s).1).count TrialType.pretone
        = (⌊(n : ℚ) * ratio⌋).toNat
    ∧ ((assign_trial_types R n ratio s).1).count TrialType.active
        = n - (⌊(n : ℚ) * ratio⌋).toNat := by
  have hprod : 0 ≤ (n : ℚ) * ratio := mul_nonneg (by positivity) h0
  have hpy : pyInt ((n : ℚ) * ratio) = ⌊(n : ℚ) * ratio⌋ := if_pos hprod
  have hfl0 : 0 ≤ ⌊(n : ℚ) * ratio⌋ := Int.floor_nonneg.mpr hprod
  have hfln : ⌊(n : ℚ) * ratio⌋ ≤ (n : Int) := by
    have hle : (n : ℚ) * ratio ≤ (n : ℚ) := by
      calc (n : ℚ) * ratio ≤ (n : ℚ) * 1 :=
            mul_le_mul_of_nonneg_left h1 (by positivity)
        _ = (n : ℚ) := mul_one _
    calc ⌊(n : ℚ) * ratio⌋ ≤ ⌊(n : ℚ)⌋ := Int.floor_le_floor hle
      _ = (n : Int) := Int.floor_natCast n
  have hperm := RandomGenerator.shuffle_perm R s
    (List.replicate ((n : Int) - ⌊(n : ℚ) * ratio⌋).toNat TrialType.active ++
     List.replicate (⌊(n : ℚ) * ratio⌋).toNat TrialType.pretone)
  simp only [assign_trial_types, hpy]
  refine ⟨?_, ?_, ?_⟩
  · rw [hperm.length_eq, List.length_append, List.length_replicate,
      List.length_replicate]
    omega
  · rw [hperm.count_eq, count_append_replicate_pretone]
  · rw [hperm.count_eq, count_append_replicate_active]
    omega

/-- C7 (witness): `n = 5`, `ratio = 2/5` yields 5 trials, 2 Pre-tone and 3
Active, at a concrete RandomState instance. -/
theorem assign_trial_types_ratio_witness :
    ((assign_trial_types detRandom 5 (2/5) ()).1).length = 5
    ∧ ((assign_trial_types detRandom 5 (2/5) ()).1).count TrialType.pretone = 2
    ∧ ((assign_trial_types detRandom 5 (2/5) ()).1).count TrialType.active = 3 := by
  obtain ⟨hl, hp, ha⟩ := assign_trial_types_ratio detRandom 5 (2/5) ()
    (by norm_num) (by norm_num) (by norm_num)
  have h2 : ⌊((5 : Nat) : ℚ) * (2/5)⌋ = 2 := by norm_num
  have hfl : (⌊((5 : Nat) : ℚ) * (2/5)⌋).toNat = 2 := by
    rw [h2]
    rfl
  refine ⟨hl, ?_, ?_⟩
  · rw [hp, hfl]
  · rw [ha, hfl]

/-- C6 (counterexample): requesting the concrete unknown preset name
`"no_such_preset"` does not fail: `create_all_trials` silently falls back to
the default configuration (the `'original'` blocks) and builds its full
480-trial plan.  No `ConfigurationMissing` error exists anywhere in the
source (src/utils.py:163-172 has no else-raise). -/
theorem unknown_preset_counterexample :
    create_all_trials detRandom underflowExp 42 (some "no_such_preset")
      = create_all_trials detRandom underflowExp 42 none
    ∧ (create_all_trials detRandom underflowExp 42 (some "no_such_preset")).length
        = 480 := by
  constructor
  · rfl
  · rw [show create_all_trials detRandom underflowExp 42 (some "no_such_preset")
        = buildBlocksLoop detRandom underflowExp BLOCKS PRETONE_RATIO BLOCK_ORDER
            0 () from rfl]
    rw [buildBlocksLoop_length]
    decide

/-- C6 (amended): when the requested preset name is not found in
`config.EXPERIMENT_PRESETS`, plan construction does not fail: it silently
falls back to the default configuration and returns the same plan as when no
preset is requested.  No error is raised and nothing lists the valid preset
names. -/
theorem unknown_preset_fallback (R : NumpyRandomState) (expf : ℚ → ℚ)
    (seed : Int) (name : String)
    (hname : EXPERIMENT_PRESETS.lookup name = none) :
    create_all_trials R expf seed (some name)
      = create_all_trials R expf seed none := by
  unfold create_all_trials resolve_preset
  by_cases hp : name = ""
  · simp [hp]
  · simp [hp, hname]

/-- C6 (witness for the amended theorem): a concrete absent preset name
yields exactly the default-configuration plan. -/
theorem unknown_preset_fallback_witness :
    create_all_trials detRandom underflowExp 42 (some "definitely_missing")
      = create_all_trials detRandom underflowExp 42 none :=
  unknown_preset_fallback detRandom underflowExp 42 "definitely_missing" rfl

/-- C1: plan construction is deterministic.  Two plan builds from the same
(seed, preset) — each starting from its own generator state constructed from
the seed, as `rng = RandomGenerator(seed)` does at src/utils.py:159 — yield
identical plans: the same delays, trial types, block names, sigma values and
global indices in every position.  All randomness is drawn from the
seed-initialised state in a fixed call order, and the configuration tables
are constants, so the build is a pure function of (seed, preset). -/
theorem create_all_trials_deterministic (R : NumpyRandomState) (expf : ℚ → ℚ)
    (seed : Int) (preset : Option String) (s1 s2 : R.State)
    (h1 : s1 = R.init seed) (h2 : s2 = R.init seed) :
    create_all_trials_from R expf s1 preset = create_all_trials_from R expf s2 preset
    ∧ (create_all_trials_from R expf s1 preset).map Trial.delay_ms
        = (create_all_trials_from R expf s2 preset).map Trial.delay_ms
    ∧ (create_all_trials_from R expf s1 preset).map Trial.trial_type
        = (create_all_trials_from R expf s2 preset).map Trial.trial_type
    ∧ (create_all_trials_from R expf s1 preset).map Trial.block_name
        = (create_all_trials_from R expf s2 preset).map Trial.block_name
    ∧ (create_all_trials_from R expf s1 preset).map Trial.sigma
        = (create_all_trials_from R expf s2 preset).map Trial.sigma
    ∧ (create_all_trials_from R expf s1 preset).map Trial.trial_index_global
        = (create_all_trials_from R expf s2 preset).map Trial.trial_index_global
    ∧ create_all_trials R expf seed preset = create_all_trials_from R expf s1 preset := by
  subst h1
  subst h2
  exact ⟨rfl, rfl, rfl, rfl, rfl, rfl, rfl⟩

/-- C1 (witness): the determinism theorem instantiated at a concrete
RandomState instance, seed 42 and the default preset. -/
theorem create_all_trials_deterministic_witness :
    create_all_trials_from detRandom underflowExp () none
      = create_all_trials_from detRandom underflowExp () none :=
  (create_all_trials_deterministic detRandom underflowExp 42 none () () rfl rfl).1

/-- C9: index contiguity.  For every seed and preset the built plan's
`trial_index_global` values are exactly `0, 1, …, len(plan)−1` in order;
within each block as built, `trial_index_in_block` is `0, 1, …, n_trials−1`,
and the global-index stamping pass of `create_all_trials` leaves
`trial_index_in_block` untouched. -/
theorem plan_index_contiguity (R : NumpyRandomState) (expf : ℚ → ℚ)
    (seed : Int) (preset : Option String) :
    (create_all_trials R expf seed preset).map Trial.trial_index_global
      = List.range (create_all_trials R expf seed preset).length
    ∧ (∀ (bid : String) (bi : BlockInfo) (ratio : ℚ) (s : R.State),
        ((create_block_trials R expf bid bi ratio s).1).map Trial.trial_index_in_block
          = List.range bi.n_trials)
    ∧ (∀ (bts : List Trial) (g : Nat),
        (bts.enum.map (fun p =>
            ({ p.2 with trial_index_global := g + p.1 } : Trial))).map
              Trial.trial_index_in_block
          = bts.map Trial.trial_index_in_block) := by
  refine ⟨?_, ?_, ?_⟩
  · have h := buildBlocksLoop_map_global R expf (resolve_preset preset).1
      (resolve_preset preset).2.2 (resolve_preset preset).2.1 0 (R.init seed)
    rw [show create_all_trials R expf seed preset
        = buildBlocksLoop R expf (resolve_preset preset).1
            (resolve_preset preset).2.2 (resolve_preset preset).2.1 0 (R.init seed)
        from rfl]
    rw [h, List.range_eq_range']
  · intro bid bi ratio s
    exact create_block_trials_map_inblock R expf bid bi ratio s
  · intro bts g
    rw [List.map_map]
    have hcomp : (Trial.trial_index_in_block ∘ fun p : Nat × Trial =>
        ({ p.2 with trial_index_global := g + p.1 } : Trial))
          = Trial.trial_index_in_block ∘ Prod.snd := by
      funext p
      rfl
    rw [hcomp, ← List.map_map, List.enum_map_snd]

/-- C10: the seeded random source's shuffle is non-destructive.  At the
Python object level (src/utils.py:17-21), `RandomGenerator.shuffle` allocates
a fresh list (`arr.copy()`), permutes only that fresh cell in place, and
returns its reference: the caller's cell still holds exactly its old
contents, the returned reference is distinct from the argument's, and the
returned cell holds a permutation of the argument's elements. -/
theorem shuffleRef_frame (R : NumpyRandomState) (s : R.State) (h : PyListHeap)
    (r : Nat) (hr : r < h.cells.length) :
    (RandomGenerator.shuffleRef R s h r).2.1.read r = h.read r
    ∧ (RandomGenerator.shuffleRef R s h r).1 ≠ r
    ∧ ((RandomGenerator.shuffleRef R s h r).2.1.read
          ((RandomGenerator.shuffleRef R s h r).1)).Perm (h.read r) := by
  refine ⟨?_, ?_, ?_⟩
  · simp only [RandomGenerator.shuffleRef, PyListHeap.read]
    rw [List.getElem?_set_ne (Nat.ne_of_gt hr), List.getElem?_append_left hr]
  · simp only [RandomGenerator.shuffleRef]
    exact Nat.ne_of_gt hr
  · simp only [RandomGenerator.shuffleRef, PyListHeap.read]
    rw [List.getElem?_set_self (by simp)]
    exact selectIdx_perm _ _ (R.permOfLen_perm s _)

/-- C10 (witness): concrete one-cell heap holding `[1, 2, 3]`: after the
call the original cell is unchanged, the result is a fresh reference, and it
holds a permutation of `[1, 2, 3]`. -/
theorem shuffleRef_frame_witness :
    (RandomGenerator.shuffleRef detRandom () ⟨[[1, 2, 3]]⟩ 0).2.1.read 0
        = PyListHeap.read ⟨[[1, 2, 3]]⟩ 0
    ∧ (RandomGenerator.shuffleRef detRandom () ⟨[[1, 2, 3]]⟩ 0).1 ≠ 0
    ∧ ((RandomGenerator.shuffleRef detRandom () ⟨[[1, 2, 3]]⟩ 0).2.1.read
          ((RandomGenerator.shuffleRef detRandom () ⟨[[1, 2, 3]]⟩ 0).1)).Perm
        (PyListHeap.read ⟨[[1, 2, 3]]⟩ 0) :=
  shuffleRef_frame detRandom () ⟨[[1, 2, 3]]⟩ 0 (by norm_num)
